import Mathlib

/-!
Verification of the agent workflow runner of this repository.

The embedding follows the source: `types.ts` (the `Agent` record and the
`AgentStatus` enum), `geminiService.ts` (`runAgent` and
`generateFollowUpQuestions`, both thin wrappers around the external
`ai.models.generateContent` call), and `App.tsx`'s `runWorkflow` callback
(reset, sequential loop with per-task `setAgents` functional updates,
fenced-JSON extraction, aggregation over the final task list, and the
optional follow-up synthesis call).

External collaborators are parameters of the model:
the provider `ai.models.generateContent` is a function
`gen : String → String → Except Unit String` (model id and input to either
a response text or a failure), and the JavaScript builtin `JSON.parse` is a
function `decode : String → Option Json` (parse failures, which the source
catches, are `none`).  React state updates (`setAgents` with a functional
updater) are modelled by explicit state passing: every published snapshot
of the task list is recorded in a trace.
-/

/-- Generic JSON-like value tree, the result type of the external
`JSON.parse` builtin as used by `runWorkflow`. -/
inductive Json where
  | null : Json
  | bool : Bool → Json
  | num : Int → Json
  | str : String → Json
  | arr : List Json → Json
  | obj : List (String × Json) → Json

/-- JavaScript truthiness of a JSON value (`undefined` does not occur as a
stored JSON value; absent fields are modelled by `Option`). -/
def jsTruthy : Json → Bool
  | Json.null => false
  | Json.bool b => b
  | Json.num n => n != 0
  | Json.str s => s != ""
  | Json.arr _ => true
  | Json.obj _ => true

mutual

/-- JavaScript `String(v)` conversion, as used on line 323 of `App.tsx`
(`String(sentimentAgent.outputJson.sentiment)`).  Arrays stringify by
joining element conversions with commas, `null` elements becoming empty;
objects become `[object Object]`. -/
def jsToString : Json → String
  | Json.null => "null"
  | Json.bool b => cond b "true" "false"
  | Json.num n => toString n
  | Json.str s => s
  | Json.obj _ => "[object Object]"
  | Json.arr xs => String.intercalate "," (jsToGlue xs)

/-- Element conversion for array stringification. -/
def jsToGlue : List Json → List String
  | [] => []
  | Json.null :: rest => "" :: jsToGlue rest
  | j :: rest => jsToString j :: jsToGlue rest

end

/-- JavaScript `toLowerCase()` (ASCII case mapping, the external string
builtin as used on `App.tsx` line 323). -/
def strToLower (s : String) : String := String.mk (s.data.map Char.toLower)

/-- JavaScript property access `j.k` on a parsed JSON value: a field of an
object, `undefined` (here `none`) on every non-object. -/
def jsonField (j : Json) (k : String) : Option Json :=
  match j with
  | Json.obj fs => (fs.find? fun f => f.1 = k).map (fun f => f.2)
  | _ => none

/-- Status enum from `types.ts`. -/
inductive AgentStatus where
  | Pending : AgentStatus
  | Running : AgentStatus
  | Success : AgentStatus
  | Error : AgentStatus
deriving DecidableEq

/-- The `Agent` record from `types.ts`.  `output`, `error` and
`outputJson` are nullable; `outputJson` is the structured output extracted
from `output`. -/
structure Agent where
  id : String
  name : String
  prompt : String
  status : AgentStatus
  model : String
  output : Option String
  error : Option String
  outputJson : Option Json

/-- Reset of one task at the start of a run (`App.tsx` line 278):
`{ ...a, status: Pending, output: null, error: null, outputJson: null }`. -/
def resetAgent (a : Agent) : Agent :=
  { a with status := AgentStatus.Pending, output := none, error := none,
           outputJson := none }

/-- The `Running` transition (`App.tsx` line 287):
`{ ...a, status: Running }`. -/
def runningUpdate (a : Agent) : Agent :=
  { a with status := AgentStatus.Running }

/-- The success transition (`App.tsx` line 303): `{ ...a, status: Success,
output, outputJson, error: null }`. -/
def successUpdate (output : String) (oj : Option Json) (a : Agent) : Agent :=
  { a with status := AgentStatus.Success, output := some output,
           outputJson := oj, error := none }

/-- The failure transition (`App.tsx` line 309): `{ ...a, status: Error,
error: errorMessage }` (note: `output` and `outputJson` are left as they
are). -/
def errorUpdate (msg : String) (a : Agent) : Agent :=
  { a with status := AgentStatus.Error, error := some msg }

/-- The by-id functional state update used by every `setAgents` call in the
run loop: `prev.map(a => a.id === id ? upd(a) : a)`. -/
def updateById (id : String) (upd : Agent → Agent) (l : List Agent) : List Agent :=
  l.map fun a => if a.id = id then upd a else a

/-- Prompt composition from `geminiService.ts` (`runAgent`, line 25). -/
def composePrompt (documentContent : String) (prompt : String) : String :=
  "DOCUMENT CONTENT:\n---\n" ++ documentContent ++ "\n---\n\nTASK:\n" ++ prompt

/-- The `runAgent` wrapper from `geminiService.ts`: calls the provider with
the agent's model and the composed prompt; on provider failure it throws an
`Error` whose message names the agent. -/
def runAgent (gen : String → String → Except Unit String) (agent : Agent)
    (documentContent : String) : Except String String :=
  match gen agent.model (composePrompt documentContent agent.prompt) with
  | Except.ok t => Except.ok t
  | Except.error _ =>
      Except.error ("Agent \"" ++ agent.name ++ "\" failed to execute.")

/-- The fixed prompt template of `generateFollowUpQuestions`
(`geminiService.ts` lines 41-51). -/
def followUpPrompt (documentContent : String) (agentOutputs : String) : String :=
  "Based on the original document and the analysis performed by various AI agents, generate 3 insightful follow-up questions a user might have. The original document is provided below, followed by the outputs from the agents.\n\n<Original_Document>\n"
    ++ documentContent
    ++ "\n</Original_Document>\n\n<Agent_Outputs>\n"
    ++ agentOutputs
    ++ "\n</Agent_Outputs>\n\nPlease provide only the 3 questions, each on a new line, prefixed with a hyphen."

/-- Index of the first occurrence of `pat` in a character list, counting
from `k`; `none` when `pat` occurs nowhere. -/
def firstIndexOfFrom (pat : List Char) : List Char → Nat → Option Nat
  | [], k => if pat.isPrefixOf ([] : List Char) then some k else none
  | s@(_ :: t), k => if pat.isPrefixOf s then some k else firstIndexOfFrom pat t (k + 1)

/-- Opening delimiter of the fenced structured block in the regex
of `App.tsx` line 295. -/
def jsonOpenTag : List Char := "```json\n".data

/-- Closing delimiter of the fenced structured block. -/
def jsonCloseTag : List Char := "\n```".data

/-- The capture group of `output.match(/```json\n([\s\S]*?)\n```/)`:
the leftmost match of the regex starts at the first occurrence of the
opening delimiter, and the lazy group ends at the earliest following
occurrence of the closing delimiter.  `none` when the regex does not
match. -/
def firstJsonBlock (s : String) : Option String :=
  match firstIndexOfFrom jsonOpenTag s.data 0 with
  | none => none
  | some i =>
      let rest := s.data.drop (i + jsonOpenTag.length)
      match firstIndexOfFrom jsonCloseTag rest 0 with
      | none => none
      | some j => some (String.mk (rest.take j))

/-- Structured-output extraction (`App.tsx` lines 293-301): decode the
first fenced block; a missing block or a decode failure (which the source
catches) yields `none`. -/
def extractJson (decode : String → Option Json) (s : String) : Option Json :=
  (firstJsonBlock s).bind decode

/-- Final shape of a task whose provider call returned `output`
(`successUpdate` applied, with the structured output extracted from the
raw text). -/
def succAgent (decode : String → Option Json) (a : Agent) (output : String) : Agent :=
  successUpdate output (extractJson decode output) a

/-- Final shape of a task whose provider call failed (`errorUpdate` with
the message thrown by `runAgent`). -/
def errAgent (a : Agent) : Agent :=
  errorUpdate ("Agent \"" ++ a.name ++ "\" failed to execute.") a

/-- Terminal shape of a task that was attempted: success or failure
according to the provider's answer. -/
def finishOk (gen : String → String → Except Unit String)
    (decode : String → Option Json) (doc : String) (a : Agent) : Agent :=
  match runAgent gen a doc with
  | Except.ok t => succAgent decode a t
  | Except.error msg => errorUpdate msg a

/-- Expected final task list of the sequential loop: tasks are finished in
order until the first provider failure, after which the remaining tasks
are left untouched. -/
def expectedFinal (gen : String → String → Except Unit String)
    (decode : String → Option Json) (doc : String) : List Agent → List Agent
  | [] => []
  | a :: rest =>
      match runAgent gen a doc with
      | Except.ok t => succAgent decode a t :: expectedFinal gen decode doc rest
      | Except.error msg => errorUpdate msg a :: rest

/-- Expected contents of `agentOutputsForFollowup`: one entry per
succeeded task, in order, stopping at the first failure. -/
def expectedAcc (gen : String → String → Except Unit String) (doc : String) :
    List Agent → List String
  | [] => []
  | a :: rest =>
      match runAgent gen a doc with
      | Except.ok t =>
          ("--- Agent: " ++ a.name ++ " ---\n" ++ t) :: expectedAcc gen doc rest
      | Except.error _ => []

/-- Expected provider invocations of the loop: one call per attempted
task, stopping after the first failure. -/
def expectedCalls (gen : String → String → Except Unit String) (doc : String) :
    List Agent → List (String × String)
  | [] => []
  | a :: rest =>
      (a.model, composePrompt doc a.prompt) ::
        match runAgent gen a doc with
        | Except.ok _ => expectedCalls gen doc rest
        | Except.error _ => []

/-- Expected sequence of published task-list snapshots of the loop, after
the initial reset snapshot: for each attempted task first the `Running`
snapshot, then the terminal snapshot; `done` is the already-processed
prefix. -/
def expectedTrace (gen : String → String → Except Unit String)
    (decode : String → Option Json) (doc : String) :
    List Agent → List Agent → List (List Agent)
  | _, [] => []
  | done, a :: rest =>
      let snapRunning := done ++ runningUpdate a :: rest
      match runAgent gen a doc with
      | Except.ok t =>
          let fa := succAgent decode a t
          snapRunning :: (done ++ fa :: rest) ::
            expectedTrace gen decode doc (done ++ [fa]) rest
      | Except.error msg =>
          [snapRunning, done ++ errorUpdate msg a :: rest]

/-- Result of the run loop: the published snapshots, the final published
task list, the `finalAgentsState` local, the follow-up accumulator, and
the provider invocations made. -/
structure LoopResult where
  trace : List (List Agent)
  published : List Agent
  finalAgents : List Agent
  followupAcc : List String
  calls : List (String × String)

/-- The sequential loop of `runWorkflow` (`App.tsx` lines 284-314).
`toProcess` is the remainder of the captured `agentsToRun`; `cur` is the
current React state (`prev` of the functional updates); `fin` is the
`finalAgentsState` local.  Each iteration publishes the `Running`
snapshot, invokes the provider, publishes the terminal snapshot, and on
failure breaks out of the loop. -/
def runLoop (gen : String → String → Except Unit String)
    (decode : String → Option Json) (doc : String) :
    List Agent → List Agent → List Agent → List String →
    List (String × String) → LoopResult
  | [], cur, fin, acc, calls => ⟨[], cur, fin, acc, calls⟩
  | agent :: rest, cur, fin, acc, calls =>
      let cur1 := updateById agent.id runningUpdate cur
      let calls1 := calls ++ [(agent.model, composePrompt doc agent.prompt)]
      match runAgent gen agent doc with
      | Except.ok output =>
          let acc1 := acc ++ ["--- Agent: " ++ agent.name ++ " ---\n" ++ output]
          let oj := extractJson decode output
          let cur2 := updateById agent.id (successUpdate output oj) cur1
          let fin1 := updateById agent.id (successUpdate output oj) fin
          let r := runLoop gen decode doc rest cur2 fin1 acc1 calls1
          ⟨cur1 :: cur2 :: r.trace, r.published, r.finalAgents, r.followupAcc, r.calls⟩
      | Except.error msg =>
          let cur2 := updateById agent.id (errorUpdate msg) cur1
          let fin1 := updateById agent.id (errorUpdate msg) fin
          ⟨[cur1, cur2], cur2, fin1, acc, calls1⟩

/-- Sentiment tally of `AnalysisResult` (`types.ts`): the three buckets
`positive`, `negative`, `neutral`. -/
structure SentimentTally where
  positive : Nat
  negative : Nat
  neutral : Nat
deriving DecidableEq

/-- The `AnalysisResult` record from `types.ts`.  The entity list keeps
the raw filtered JSON elements, as the source does. -/
structure AnalysisResult where
  sentiment : Option SentimentTally
  entities : Option (List Json)

/-- Sentiment classification of `App.tsx` lines 323-326: lower-case the
stringified value and bucket it. -/
def sentimentTally (v : Json) : SentimentTally :=
  let s := strToLower (jsToString v)
  if s = "positive" then ⟨1, 0, 0⟩
  else if s = "negative" then ⟨0, 1, 0⟩
  else ⟨0, 0, 1⟩

/-- The value `sentimentAgent?.outputJson?.sentiment` of `App.tsx`
line 322 (optional chaining). -/
def sentimentValue (sentimentAgent : Option Agent) : Option Json :=
  sentimentAgent.bind fun a => a.outputJson.bind fun j => jsonField j "sentiment"

/-- `newAnalysis.sentiment` as computed on `App.tsx` lines 322-327: the
tally when the chained sentiment value is truthy, otherwise left null. -/
def aggSentiment (successfulAgents : List Agent) : Option SentimentTally :=
  match sentimentValue (successfulAgents.find? fun a => a.name = "Sentiment Analyzer") with
  | some v => if jsTruthy v then some (sentimentTally v) else none
  | none => none

/-- The element filter of `App.tsx` line 329:
`e && typeof e.name === 'string' && typeof e.type === 'string'`. -/
def entityWellTyped (e : Json) : Bool :=
  jsTruthy e &&
    (match jsonField e "name" with
     | some (Json.str _) => true
     | _ => false) &&
    (match jsonField e "type" with
     | some (Json.str _) => true
     | _ => false)

/-- `newAnalysis.entities` as computed on `App.tsx` lines 328-330: the
filtered array when `outputJson` is a (truthy) array, otherwise left
null. -/
def aggEntities (successfulAgents : List Agent) : Option (List Json) :=
  match successfulAgents.find? fun a => a.name = "Entity Extractor" with
  | some a =>
      match a.outputJson with
      | some (Json.arr xs) => some (xs.filter entityWellTyped)
      | _ => none
  | none => none

/-- The analysis-result value published at the end of a run (`App.tsx`
lines 316-334): `none` models the `analysisResult` state keeping the
`null` it was reset to on line 275 (no successful task, or the
publication condition on line 331 failing). -/
def aggregateSuccessful (fin : List Agent) : Option AnalysisResult :=
  let successfulAgents := fin.filter fun a => a.status = AgentStatus.Success
  if successfulAgents.length > 0 then
    let sentiment := aggSentiment successfulAgents
    let entities := aggEntities successfulAgents
    if sentiment.isSome ||
        (match entities with
         | some l => decide (l.length > 0)
         | none => false) then
      some ⟨sentiment, entities⟩
    else none
  else none

/-- The component state touched by `runWorkflow`. -/
structure AppState where
  agents : List Agent
  analysisResult : Option AnalysisResult
  followUpQuestions : Option String
  isProcessing : Bool

/-- Observable outcome of one `runWorkflow` invocation: the state at the
end, the published task-list snapshots in order, the provider invocations
made, and whether follow-up synthesis was invoked. -/
structure RunOutcome where
  final : AppState
  trace : List (List Agent)
  calls : List (String × String)
  followUpInvoked : Bool

/-- The `runWorkflow` callback of `App.tsx` lines 272-346, parameterised
by the external provider `gen` and the external `JSON.parse` builtin
`decode`.  An empty document or an empty task list returns before any
state change.  Otherwise: reset and publish, run the loop, aggregate the
final task list, and when at least one task succeeded invoke follow-up
synthesis (whose failure is suppressed). -/
def runWorkflow (gen : String → String → Except Unit String)
    (decode : String → Option Json) (documentContent : String)
    (st : AppState) : RunOutcome :=
  if documentContent = "" ∨ st.agents.length = 0 then
    ⟨st, [], [], false⟩
  else
    let agentsToRun := st.agents.map resetAgent
    let r := runLoop gen decode documentContent agentsToRun agentsToRun agentsToRun [] []
    let analysis := aggregateSuccessful r.finalAgents
    if r.followupAcc.length > 0 then
      let followInput := followUpPrompt documentContent (String.intercalate "\n\n" r.followupAcc)
      let followUp :=
        match gen "gemini-2.5-flash" followInput with
        | Except.ok t => some t
        | Except.error _ => none
      ⟨⟨r.published, analysis, followUp, false⟩, agentsToRun :: r.trace,
        r.calls ++ [("gemini-2.5-flash", followInput)], true⟩
    else
      ⟨⟨r.published, analysis, none, false⟩, agentsToRun :: r.trace, r.calls, false⟩

/-- Field invariant of one task (spec §3): null `output`/`error`/
`outputJson` while `Pending` or `Running`; exactly one of `output`,
`error` non-null in a terminal status. -/
def taskInv (a : Agent) : Prop :=
  ((a.status = AgentStatus.Pending ∨ a.status = AgentStatus.Running) →
      a.output = none ∧ a.error = none ∧ a.outputJson = none) ∧
  (a.status = AgentStatus.Success → a.output ≠ none ∧ a.error = none) ∧
  (a.status = AgentStatus.Error → a.error ≠ none ∧ a.output = none)

/-- Shape of a task right after the snapshot reset. -/
def pendingNull (a : Agent) : Prop :=
  a.status = AgentStatus.Pending ∧ a.output = none ∧ a.error = none ∧
    a.outputJson = none

/-! Concrete inputs used by the witness theorems. -/

/-- Provider stub that succeeds on every invocation. -/
def genAlwaysOk : String → String → Except Unit String :=
  fun _ _ => Except.ok "stub output"

/-- Provider stub that succeeds exactly on the model id "m0". -/
def genOkOnM0 : String → String → Except Unit String :=
  fun m _ => if m = "m0" then Except.ok "stub output" else Except.error ()

/-- Decoder stub that never parses. -/
def decodeNone : String → Option Json := fun _ => none

/-- A concrete task. -/
def agentA : Agent :=
  ⟨"agent-1", "Summarizer", "Summarize the document.", AgentStatus.Pending,
   "m0", none, none, none⟩

/-- A second concrete task with a distinct id and model. -/
def agentB : Agent :=
  ⟨"agent-2", "Sentiment Analyzer", "Classify the sentiment.",
   AgentStatus.Pending, "m1", none, none, none⟩

/-- A task of the sentiment role whose structured output carries a falsy
sentiment value (the empty string). -/
def sentAgentEmpty : Agent :=
  ⟨"s1", "Sentiment Analyzer", "p", AgentStatus.Success, "m0", some "raw",
   none, some (Json.obj [("sentiment", Json.str "")])⟩

/-- A task of the sentiment role whose structured output carries the
value "Positive". -/
def sentAgentPos : Agent :=
  ⟨"s2", "Sentiment Analyzer", "p", AgentStatus.Success, "m0", some "raw",
   none, some (Json.obj [("sentiment", Json.str "Positive")])⟩

/-- A task of the entity role whose structured output is a sequence with
only malformed elements. -/
def entAgentBad : Agent :=
  ⟨"e1", "Entity Extractor", "p", AgentStatus.Success, "m0", some "raw",
   none, some (Json.arr [Json.obj [("name", Json.num 42)]])⟩

/-! Helper lemmas about the state updates. -/

theorem resetAgent_id (a : Agent) : (resetAgent a).id = a.id := rfl

theorem runningUpdate_id (a : Agent) : (runningUpdate a).id = a.id := rfl

theorem successUpdate_id (o : String) (oj : Option Json) (a : Agent) :
    (successUpdate o oj a).id = a.id := rfl

theorem errorUpdate_id (m : String) (a : Agent) : (errorUpdate m a).id = a.id := rfl

theorem succAgent_id (decode : String → Option Json) (a : Agent) (t : String) :
    (succAgent decode a t).id = a.id := rfl

theorem successUpdate_runningUpdate (o : String) (oj : Option Json) (a : Agent) :
    successUpdate o oj (runningUpdate a) = successUpdate o oj a := rfl

theorem errorUpdate_runningUpdate (m : String) (a : Agent) :
    errorUpdate m (runningUpdate a) = errorUpdate m a := rfl

theorem map_ite_id (i : String) (f : Agent → Agent) :
    ∀ l : List Agent, (∀ c ∈ l, c.id ≠ i) →
      (l.map fun c => if c.id = i then f c else c) = l := by
  intro l
  induction l with
  | nil => intro _; rfl
  | cons c t iht =>
      intro h
      simp only [List.map_cons]
      rw [if_neg (h c (List.mem_cons_self c t)),
        iht fun d hd => h d (List.mem_cons_of_mem _ hd)]

theorem updateById_append_cons (i : String) (f : Agent → Agent)
    (pre post : List Agent) (b : Agent) (hb : b.id = i)
    (hpre : ∀ c ∈ pre, c.id ≠ i) (hpost : ∀ c ∈ post, c.id ≠ i) :
    updateById i f (pre ++ b :: post) = pre ++ f b :: post := by
  unfold updateById
  rw [List.map_append, List.map_cons, map_ite_id i f pre hpre, if_pos hb,
    map_ite_id i f post hpost]

theorem notMem_of_nodup_ids {done rest' : List Agent} {a : Agent}
    (h : ((done ++ a :: rest').map fun x => x.id).Nodup) :
    (∀ c ∈ done, c.id ≠ a.id) ∧ ∀ c ∈ rest', c.id ≠ a.id := by
  rw [List.map_append, List.map_cons, List.nodup_append] at h
  obtain ⟨h1, h2, h3⟩ := h
  refine ⟨fun c hc heq => ?_, fun c hc heq => ?_⟩
  · exact h3 (List.mem_map_of_mem _ hc) (by simp [heq])
  · exact (List.nodup_cons.mp h2).1 (by rw [← heq]; exact List.mem_map_of_mem _ hc)

theorem runLoop_eq (gen : String → String → Except Unit String)
    (decode : String → Option Json) (doc : String) :
    ∀ (rest done : List Agent) (acc : List String)
      (calls : List (String × String)),
    ((done ++ rest).map fun x => x.id).Nodup →
    runLoop gen decode doc rest (done ++ rest) (done ++ rest) acc calls =
      ⟨expectedTrace gen decode doc done rest,
       done ++ expectedFinal gen decode doc rest,
       done ++ expectedFinal gen decode doc rest,
       acc ++ expectedAcc gen doc rest,
       calls ++ expectedCalls gen doc rest⟩ := by
  intro rest
  induction rest with
  | nil =>
      intro done acc calls _
      simp [runLoop, expectedTrace, expectedFinal, expectedAcc, expectedCalls]
  | cons a rest' ih =>
      intro done acc calls h
      obtain ⟨hdone, hrest⟩ := notMem_of_nodup_ids h
      simp only [runLoop, expectedTrace, expectedFinal, expectedAcc, expectedCalls]
      have e1 : updateById a.id runningUpdate (done ++ a :: rest') =
          done ++ runningUpdate a :: rest' :=
        updateById_append_cons a.id runningUpdate done rest' a rfl hdone hrest
      cases hga : runAgent gen a doc with
      | ok t =>
          have e2 : updateById a.id (successUpdate t (extractJson decode t))
              (done ++ runningUpdate a :: rest') =
              done ++ succAgent decode a t :: rest' := by
            rw [updateById_append_cons a.id _ done rest' (runningUpdate a) rfl
              hdone hrest, successUpdate_runningUpdate]
            rfl
          have e3 : updateById a.id (successUpdate t (extractJson decode t))
              (done ++ a :: rest') = done ++ succAgent decode a t :: rest' :=
            updateById_append_cons a.id _ done rest' a rfl hdone hrest
          have hassoc : done ++ succAgent decode a t :: rest' =
              (done ++ [succAgent decode a t]) ++ rest' := by simp
          have hids2 : (((done ++ [succAgent decode a t]) ++ rest').map
              fun x => x.id) = ((done ++ a :: rest').map fun x => x.id) := by
            simp [succAgent_id]
          have ihres := ih (done ++ [succAgent decode a t])
            (acc ++ ["--- Agent: " ++ a.name ++ " ---\n" ++ t])
            (calls ++ [(a.model, composePrompt doc a.prompt)])
            (by rw [hids2]; exact h)
          simp only [e1, e2, e3, hassoc, ihres]
          simp
      | error msg =>
          have e2 : updateById a.id (errorUpdate msg)
              (done ++ runningUpdate a :: rest') =
              done ++ errorUpdate msg a :: rest' := by
            rw [updateById_append_cons a.id _ done rest' (runningUpdate a) rfl
              hdone hrest, errorUpdate_runningUpdate]
          have e3 : updateById a.id (errorUpdate msg) (done ++ a :: rest') =
              done ++ errorUpdate msg a :: rest' :=
            updateById_append_cons a.id _ done rest' a rfl hdone hrest
          simp only [e1, e2, e3]
          simp

theorem reset_ids_nodup {st : AppState}
    (hnd : (st.agents.map fun x => x.id).Nodup) :
    ((st.agents.map resetAgent).map fun x => x.id).Nodup := by
  rw [List.map_map]
  exact hnd

theorem runWorkflow_eq (gen : String → String → Except Unit String)
    (decode : String → Option Json) (doc : String) (st : AppState)
    (hdoc : doc ≠ "") (hne : st.agents ≠ [])
    (hnd : (st.agents.map fun x => x.id).Nodup) :
    runWorkflow gen decode doc st =
      if (expectedAcc gen doc (st.agents.map resetAgent)).length > 0 then
        ⟨⟨expectedFinal gen decode doc (st.agents.map resetAgent),
          aggregateSuccessful
            (expectedFinal gen decode doc (st.agents.map resetAgent)),
          (match gen "gemini-2.5-flash"
              (followUpPrompt doc (String.intercalate "\n\n"
                (expectedAcc gen doc (st.agents.map resetAgent)))) with
           | Except.ok t => some t
           | Except.error _ => none),
          false⟩,
         (st.agents.map resetAgent) ::
           expectedTrace gen decode doc [] (st.agents.map resetAgent),
         expectedCalls gen doc (st.agents.map resetAgent) ++
           [("gemini-2.5-flash",
             followUpPrompt doc (String.intercalate "\n\n"
               (expectedAcc gen doc (st.agents.map resetAgent))))],
         true⟩
      else
        ⟨⟨expectedFinal gen decode doc (st.agents.map resetAgent),
          aggregateSuccessful
            (expectedFinal gen decode doc (st.agents.map resetAgent)),
          none, false⟩,
         (st.agents.map resetAgent) ::
           expectedTrace gen decode doc [] (st.agents.map resetAgent),
         expectedCalls gen doc (st.agents.map resetAgent), false⟩ := by
  have hcond : ¬ (doc = "" ∨ st.agents.length = 0) := by
    push_neg
    exact ⟨hdoc, fun hlen => hne (List.length_eq_zero.mp hlen)⟩
  have key := runLoop_eq gen decode doc (st.agents.map resetAgent) [] [] []
    (by simpa using reset_ids_nodup hnd)
  simp only [List.nil_append] at key
  unfold runWorkflow
  rw [if_neg hcond]
  simp only [key]


theorem pendingNull_resetAgent (a : Agent) : pendingNull (resetAgent a) := by
  simp [pendingNull, resetAgent]

theorem taskInv_of_pendingNull {a : Agent} (h : pendingNull a) : taskInv a := by
  obtain ⟨h1, h2, h3, h4⟩ := h
  refine ⟨fun _ => ⟨h2, h3, h4⟩, ?_, ?_⟩ <;> intro hs <;> rw [h1] at hs <;>
    cases hs

theorem taskInv_runningUpdate {a : Agent} (h : pendingNull a) :
    taskInv (runningUpdate a) := by
  obtain ⟨h1, h2, h3, h4⟩ := h
  unfold taskInv runningUpdate
  refine ⟨fun _ => ⟨h2, h3, h4⟩, ?_, ?_⟩ <;> simp

theorem taskInv_succAgent (decode : String → Option Json) (a : Agent)
    (t : String) : taskInv (succAgent decode a t) := by
  unfold taskInv succAgent successUpdate
  refine ⟨?_, ?_, ?_⟩ <;> simp

theorem taskInv_errorUpdate {a : Agent} (msg : String) (h : pendingNull a) :
    taskInv (errorUpdate msg a) := by
  obtain ⟨h1, h2, h3, h4⟩ := h
  unfold taskInv errorUpdate
  refine ⟨?_, ?_, ?_⟩ <;> simp [h2]

theorem expectedFinal_inv (gen : String → String → Except Unit String)
    (decode : String → Option Json) (doc : String) :
    ∀ l : List Agent, (∀ a ∈ l, pendingNull a) →
      ∀ b ∈ expectedFinal gen decode doc l, taskInv b := by
  intro l
  induction l with
  | nil => intro _ b hb; cases hb
  | cons a t iht =>
      intro h b hb
      have ha := h a (List.mem_cons_self a t)
      have ht := fun d hd => h d (List.mem_cons_of_mem _ hd)
      unfold expectedFinal at hb
      cases hga : runAgent gen a doc with
      | ok o =>
          rw [hga] at hb
          rcases List.mem_cons.mp hb with hb | hb
          · rw [hb]; exact taskInv_succAgent decode a o
          · exact iht ht b hb
      | error msg =>
          rw [hga] at hb
          rcases List.mem_cons.mp hb with hb | hb
          · rw [hb]; exact taskInv_errorUpdate msg ha
          · exact taskInv_of_pendingNull (ht b hb)

theorem expectedTrace_inv (gen : String → String → Except Unit String)
    (decode : String → Option Json) (doc : String) :
    ∀ (rest done : List Agent),
    (∀ a ∈ done, taskInv a) → (∀ a ∈ rest, pendingNull a) →
    ∀ snap ∈ expectedTrace gen decode doc done rest, ∀ a ∈ snap, taskInv a := by
  intro rest
  induction rest with
  | nil => intro done _ _ snap hs; cases hs
  | cons a t iht =>
      intro done hdone hrest snap hs b hb
      have ha := hrest a (List.mem_cons_self a t)
      have ht := fun d hd => hrest d (List.mem_cons_of_mem _ hd)
      have hmidRun : ∀ c ∈ done ++ runningUpdate a :: t, taskInv c := by
        intro c hc
        rcases List.mem_append.mp hc with hc | hc
        · exact hdone c hc
        · rcases List.mem_cons.mp hc with hc | hc
          · rw [hc]; exact taskInv_runningUpdate ha
          · exact taskInv_of_pendingNull (ht c hc)
      unfold expectedTrace at hs
      cases hga : runAgent gen a doc with
      | ok o =>
          rw [hga] at hs
          have hmidSucc : ∀ c ∈ done ++ succAgent decode a o :: t, taskInv c := by
            intro c hc
            rcases List.mem_append.mp hc with hc | hc
            · exact hdone c hc
            · rcases List.mem_cons.mp hc with hc | hc
              · rw [hc]; exact taskInv_succAgent decode a o
              · exact taskInv_of_pendingNull (ht c hc)
          rcases List.mem_cons.mp hs with hs | hs
          · rw [hs] at hb; exact hmidRun b hb
          · rcases List.mem_cons.mp hs with hs | hs
            · rw [hs] at hb; exact hmidSucc b hb
            · refine iht (done ++ [succAgent decode a o]) ?_ ht snap hs b hb
              intro c hc
              rcases List.mem_append.mp hc with hc | hc
              · exact hdone c hc
              · rw [List.mem_singleton.mp hc]; exact taskInv_succAgent decode a o
      | error msg =>
          rw [hga] at hs
          have hmidErr : ∀ c ∈ done ++ errorUpdate msg a :: t, taskInv c := by
            intro c hc
            rcases List.mem_append.mp hc with hc | hc
            · exact hdone c hc
            · rcases List.mem_cons.mp hc with hc | hc
              · rw [hc]; exact taskInv_errorUpdate msg ha
              · exact taskInv_of_pendingNull (ht c hc)
          rcases List.mem_cons.mp hs with hs | hs
          · rw [hs] at hb; exact hmidRun b hb
          · rw [List.mem_singleton.mp hs] at hb; exact hmidErr b hb

theorem runWorkflow_final_agents (gen : String → String → Except Unit String)
    (decode : String → Option Json) (doc : String) (st : AppState)
    (hdoc : doc ≠ "") (hne : st.agents ≠ [])
    (hnd : (st.agents.map fun x => x.id).Nodup) :
    (runWorkflow gen decode doc st).final.agents =
      expectedFinal gen decode doc (st.agents.map resetAgent) := by
  rw [runWorkflow_eq gen decode doc st hdoc hne hnd]
  split <;> rfl

theorem runWorkflow_trace (gen : String → String → Except Unit String)
    (decode : String → Option Json) (doc : String) (st : AppState)
    (hdoc : doc ≠ "") (hne : st.agents ≠ [])
    (hnd : (st.agents.map fun x => x.id).Nodup) :
    (runWorkflow gen decode doc st).trace =
      (st.agents.map resetAgent) ::
        expectedTrace gen decode doc [] (st.agents.map resetAgent) := by
  rw [runWorkflow_eq gen decode doc st hdoc hne hnd]
  split <;> rfl

theorem runWorkflow_analysis (gen : String → String → Except Unit String)
    (decode : String → Option Json) (doc : String) (st : AppState)
    (hdoc : doc ≠ "") (hne : st.agents ≠ [])
    (hnd : (st.agents.map fun x => x.id).Nodup) :
    (runWorkflow gen decode doc st).final.analysisResult =
      aggregateSuccessful
        (expectedFinal gen decode doc (st.agents.map resetAgent)) := by
  rw [runWorkflow_eq gen decode doc st hdoc hne hnd]
  split <;> rfl

theorem runWorkflow_invoked (gen : String → String → Except Unit String)
    (decode : String → Option Json) (doc : String) (st : AppState)
    (hdoc : doc ≠ "") (hne : st.agents ≠ [])
    (hnd : (st.agents.map fun x => x.id).Nodup) :
    (runWorkflow gen decode doc st).followUpInvoked =
      (expectedAcc gen doc (st.agents.map resetAgent) ≠ []) := by
  rw [runWorkflow_eq gen decode doc st hdoc hne hnd]
  split
  · next hgt => simp [List.length_pos.mp hgt]
  · next hgt =>
      have : expectedAcc gen doc (st.agents.map resetAgent) = [] := by
        cases hl : expectedAcc gen doc (st.agents.map resetAgent) with
        | nil => rfl
        | cons x xs => exact absurd (by simp [hl]) hgt
      simp [this]

theorem runWorkflow_followUp_fail (gen : String → String → Except Unit String)
    (decode : String → Option Json) (doc : String) (st : AppState)
    (hdoc : doc ≠ "") (hne : st.agents ≠ [])
    (hnd : (st.agents.map fun x => x.id).Nodup)
    (hfail : gen "gemini-2.5-flash"
      (followUpPrompt doc (String.intercalate "\n\n"
        (expectedAcc gen doc (st.agents.map resetAgent)))) = Except.error ()) :
    (runWorkflow gen decode doc st).final.followUpQuestions = none := by
  rw [runWorkflow_eq gen decode doc st hdoc hne hnd]
  split
  · simp [hfail]
  · rfl

theorem expectedFinal_all_ok (gen : String → String → Except Unit String)
    (decode : String → Option Json) (doc : String) :
    ∀ l : List Agent, (∀ a ∈ l, ∃ t, runAgent gen a doc = Except.ok t) →
      ∀ b ∈ expectedFinal gen decode doc l,
        b.status = AgentStatus.Success ∧ b.output.isSome ∧ b.error = none := by
  intro l
  induction l with
  | nil => intro _ b hb; cases hb
  | cons a t iht =>
      intro h b hb
      obtain ⟨o, ho⟩ := h a (List.mem_cons_self a t)
      unfold expectedFinal at hb
      rw [ho] at hb
      rcases List.mem_cons.mp hb with hb | hb
      · rw [hb]; exact ⟨rfl, rfl, rfl⟩
      · exact iht (fun d hd => h d (List.mem_cons_of_mem _ hd)) b hb

theorem expectedFinal_length (gen : String → String → Except Unit String)
    (decode : String → Option Json) (doc : String) :
    ∀ l : List Agent, (expectedFinal gen decode doc l).length = l.length := by
  intro l
  induction l with
  | nil => rfl
  | cons a t iht =>
      unfold expectedFinal
      cases runAgent gen a doc <;> simp [iht]

theorem expectedFinal_fail (gen : String → String → Except Unit String)
    (decode : String → Option Json) (doc : String) :
    ∀ (l : List Agent) (K : Nat) (aK : Agent) (msg : String),
    l[K]? = some aK →
    (∀ i b, i < K → l[i]? = some b → ∃ t, runAgent gen b doc = Except.ok t) →
    runAgent gen aK doc = Except.error msg →
    expectedFinal gen decode doc l =
      (l.take K).map (finishOk gen decode doc) ++
        errorUpdate msg aK :: l.drop (K + 1) := by
  intro l
  induction l with
  | nil => intro K aK msg hK _ _; simp at hK
  | cons a t iht =>
      intro K aK msg hK hpre hfail
      cases K with
      | zero =>
          have ha : a = aK := by simpa using hK
          subst ha
          unfold expectedFinal
          rw [hfail]
          simp
      | succ K' =>
          obtain ⟨t0, ht0⟩ := hpre 0 a (Nat.succ_pos K') (by simp)
          unfold expectedFinal
          rw [ht0]
          have hrec := iht K' aK msg (by simpa using hK)
            (fun i b hi hib =>
              hpre (i + 1) b (Nat.succ_lt_succ hi)
                (by simpa using hib)) hfail
          rw [hrec]
          simp [finishOk, ht0]

theorem expectedAcc_ne_iff (gen : String → String → Except Unit String)
    (decode : String → Option Json) (doc : String) :
    ∀ l : List Agent, (∀ a ∈ l, a.status = AgentStatus.Pending) →
      (expectedAcc gen doc l ≠ [] ↔
        ∃ b ∈ expectedFinal gen decode doc l,
          b.status = AgentStatus.Success) := by
  intro l
  induction l with
  | nil => intro _; simp [expectedAcc, expectedFinal]
  | cons a t iht =>
      intro h
      unfold expectedAcc expectedFinal
      cases hga : runAgent gen a doc with
      | ok o =>
          constructor
          · intro _
            exact ⟨succAgent decode a o, List.mem_cons_self _ _, rfl⟩
          · intro _
            simp
      | error msg =>
          constructor
          · intro hne
            exact absurd rfl hne
          · rintro ⟨b, hb, hbs⟩
            rcases List.mem_cons.mp hb with hb | hb
            · rw [hb] at hbs
              cases hbs
            · rw [h b (List.mem_cons_of_mem _ hb)] at hbs
              cases hbs

theorem aggregateSuccessful_none_of_no_success (fin : List Agent)
    (h : ∀ a ∈ fin, a.status ≠ AgentStatus.Success) :
    aggregateSuccessful fin = none := by
  unfold aggregateSuccessful
  have : fin.filter (fun a => a.status = AgentStatus.Success) = [] := by
    rw [List.filter_eq_nil_iff]
    intro a ha
    simpa using h a ha
  simp [this]

theorem lt_length_of_getElem?_some {α : Type} {l : List α} {n : Nat} {a : α}
    (h : l[n]? = some a) : n < l.length := by
  by_contra hn
  push_neg at hn
  rw [List.getElem?_eq_none hn] at h
  cases h


/-- C3: with an empty document or an empty task list the run is a no-op:
the state is returned unchanged (no task status change, no
analysis-result or follow-up mutation), no provider invocation is made,
and nothing is published.  (The model is a total function, so no
exception can be raised.) -/
theorem runWorkflow_noop (gen : String → String → Except Unit String)
    (decode : String → Option Json) (doc : String) (st : AppState)
    (h : doc = "" ∨ st.agents = []) :
    runWorkflow gen decode doc st = ⟨st, [], [], false⟩ := by
  unfold runWorkflow
  rw [if_pos]
  rcases h with h | h
  · exact Or.inl h
  · exact Or.inr (by rw [h]; rfl)

/-- Witness for C3 at a concrete input: the empty document. -/
theorem runWorkflow_noop_witness :
    runWorkflow genAlwaysOk decodeNone "" ⟨[agentA], none, none, false⟩ =
      ⟨⟨[agentA], none, none, false⟩, [], [], false⟩ :=
  runWorkflow_noop genAlwaysOk decodeNone "" ⟨[agentA], none, none, false⟩
    (Or.inl rfl)

/-- C1: for a run on a non-empty document, if the provider calls for the
tasks before position K succeed and the call for task K fails, then in
the final task list task K has status `Error` with the message
`Agent "<name>" failed to execute.` (identifying the failing task by
name), and every task after K is still `Pending` with null `output` and
`error` — the loop stopped iterating at K. -/
theorem runWorkflow_fail_stops (gen : String → String → Except Unit String)
    (decode : String → Option Json) (doc : String) (st : AppState) (K : Nat)
    (aK : Agent) (hdoc : doc ≠ "")
    (hnd : (st.agents.map fun x => x.id).Nodup)
    (hK : st.agents[K]? = some aK)
    (hpre : ∀ i b, i < K → st.agents[i]? = some b →
      ∃ t, gen b.model (composePrompt doc b.prompt) = Except.ok t)
    (hfail : gen aK.model (composePrompt doc aK.prompt) = Except.error ()) :
    (runWorkflow gen decode doc st).final.agents.length = st.agents.length ∧
    (∀ b, (runWorkflow gen decode doc st).final.agents[K]? = some b →
      b.status = AgentStatus.Error ∧
      b.error = some ("Agent \"" ++ aK.name ++ "\" failed to execute.")) ∧
    ∀ j b, K < j → (runWorkflow gen decode doc st).final.agents[j]? = some b →
      b.status = AgentStatus.Pending ∧ b.output = none ∧ b.error = none := by
  have hne : st.agents ≠ [] := by
    intro h0
    rw [h0] at hK
    cases hK
  rw [runWorkflow_final_agents gen decode doc st hdoc hne hnd]
  have hKlen : K < st.agents.length := lt_length_of_getElem?_some hK
  have hKL : (st.agents.map resetAgent)[K]? = some (resetAgent aK) := by
    rw [List.getElem?_map, hK]
    rfl
  have hpreL : ∀ i b, i < K → (st.agents.map resetAgent)[i]? = some b →
      ∃ t, runAgent gen b doc = Except.ok t := by
    intro i b hi hib
    rw [List.getElem?_map] at hib
    cases horig : st.agents[i]? with
    | none => rw [horig] at hib; cases hib
    | some b0 =>
        rw [horig] at hib
        obtain ⟨t, ht⟩ := hpre i b0 hi horig
        refine ⟨t, ?_⟩
        have hb : b = resetAgent b0 := by
          cases hib
          rfl
        rw [hb]
        unfold runAgent
        rw [show (resetAgent b0).model = b0.model from rfl,
          show (resetAgent b0).prompt = b0.prompt from rfl, ht]
  have hfailL : runAgent gen (resetAgent aK) doc =
      Except.error ("Agent \"" ++ aK.name ++ "\" failed to execute.") := by
    unfold runAgent
    rw [show (resetAgent aK).model = aK.model from rfl,
      show (resetAgent aK).prompt = aK.prompt from rfl, hfail]
    rfl
  have hEF := expectedFinal_fail gen decode doc (st.agents.map resetAgent) K
    (resetAgent aK) ("Agent \"" ++ aK.name ++ "\" failed to execute.")
    hKL hpreL hfailL
  rw [hEF]
  have hPlen : (((st.agents.map resetAgent).take K).map
      (finishOk gen decode doc)).length = K := by
    rw [List.length_map, List.length_take, List.length_map]
    omega
  refine ⟨?_, ?_, ?_⟩
  · rw [List.length_append, hPlen, List.length_cons, List.length_drop,
      List.length_map]
    omega
  · intro b hb
    rw [List.getElem?_append_right (by rw [hPlen]), hPlen, Nat.sub_self,
      List.getElem?_cons_zero] at hb
    cases hb
    exact ⟨rfl, rfl⟩
  · intro j b hj hb
    rw [List.getElem?_append_right (by rw [hPlen]; omega)] at hb
    rw [hPlen] at hb
    have hjk : j - K = (j - K - 1) + 1 := by omega
    rw [hjk, List.getElem?_cons_succ, List.getElem?_drop] at hb
    have harith : K + 1 + (j - K - 1) = j := by omega
    rw [harith, List.getElem?_map] at hb
    cases horig : st.agents[j]? with
    | none => rw [horig] at hb; cases hb
    | some b0 =>
        rw [horig] at hb
        have hb' : b = resetAgent b0 := by
          cases hb
          rfl
        rw [hb']
        exact ⟨rfl, rfl, rfl⟩

/-- Witness for C1 at a concrete input: two tasks, the provider succeeds
on the first task's model and fails on the second. -/
theorem runWorkflow_fail_stops_witness :
    (runWorkflow genOkOnM0 decodeNone "doc"
        ⟨[agentA, agentB], none, none, false⟩).final.agents.length =
      ([agentA, agentB] : List Agent).length ∧
    (∀ b, (runWorkflow genOkOnM0 decodeNone "doc"
        ⟨[agentA, agentB], none, none, false⟩).final.agents[1]? = some b →
      b.status = AgentStatus.Error ∧
      b.error = some ("Agent \"" ++ agentB.name ++ "\" failed to execute.")) ∧
    ∀ j b, 1 < j → (runWorkflow genOkOnM0 decodeNone "doc"
        ⟨[agentA, agentB], none, none, false⟩).final.agents[j]? = some b →
      b.status = AgentStatus.Pending ∧ b.output = none ∧ b.error = none := by
  refine runWorkflow_fail_stops genOkOnM0 decodeNone "doc"
    ⟨[agentA, agentB], none, none, false⟩ 1 agentB (by decide) (by decide)
    rfl ?_ rfl
  intro i b hi hb
  have hi0 : i = 0 := by omega
  subst hi0
  simp only [List.getElem?_cons_zero, Option.some.injEq] at hb
  subst hb
  exact ⟨"stub output", rfl⟩

/-- C2: in a run on a non-empty document and task list, the first
published snapshot is the reset list (every task `Pending` with null
`output`, `error`, `structuredOutput` — before any task enters
`Running`), every published snapshot satisfies the field invariant
`taskInv` for every task, and so does the final task list. -/
theorem runWorkflow_invariant (gen : String → String → Except Unit String)
    (decode : String → Option Json) (doc : String) (st : AppState)
    (hdoc : doc ≠ "") (hne : st.agents ≠ [])
    (hnd : (st.agents.map fun x => x.id).Nodup) :
    (runWorkflow gen decode doc st).trace.head? =
      some (st.agents.map resetAgent) ∧
    (∀ a ∈ st.agents.map resetAgent, pendingNull a) ∧
    (∀ snap ∈ (runWorkflow gen decode doc st).trace, ∀ a ∈ snap, taskInv a) ∧
    ∀ a ∈ (runWorkflow gen decode doc st).final.agents, taskInv a := by
  have hreset : ∀ a ∈ st.agents.map resetAgent, pendingNull a := by
    intro a ha
    obtain ⟨b, _, hb⟩ := List.mem_map.mp ha
    rw [← hb]
    exact pendingNull_resetAgent b
  rw [runWorkflow_trace gen decode doc st hdoc hne hnd,
    runWorkflow_final_agents gen decode doc st hdoc hne hnd]
  refine ⟨rfl, hreset, ?_, ?_⟩
  · intro snap hs a ha
    rcases List.mem_cons.mp hs with hs | hs
    · rw [hs] at ha
      exact taskInv_of_pendingNull (hreset a ha)
    · exact expectedTrace_inv gen decode doc (st.agents.map resetAgent) []
        (fun c hc => absurd hc (List.not_mem_nil c)) hreset snap hs a ha
  · exact expectedFinal_inv gen decode doc (st.agents.map resetAgent) hreset

/-- Witness for C2 at a concrete input. -/
theorem runWorkflow_invariant_witness :
    (runWorkflow genOkOnM0 decodeNone "doc"
        ⟨[agentA, agentB], none, none, false⟩).trace.head? =
      some (([agentA, agentB] : List Agent).map resetAgent) ∧
    (∀ a ∈ ([agentA, agentB] : List Agent).map resetAgent, pendingNull a) ∧
    (∀ snap ∈ (runWorkflow genOkOnM0 decodeNone "doc"
        ⟨[agentA, agentB], none, none, false⟩).trace, ∀ a ∈ snap, taskInv a) ∧
    ∀ a ∈ (runWorkflow genOkOnM0 decodeNone "doc"
        ⟨[agentA, agentB], none, none, false⟩).final.agents, taskInv a :=
  runWorkflow_invariant genOkOnM0 decodeNone "doc"
    ⟨[agentA, agentB], none, none, false⟩ (by decide)
    (List.cons_ne_nil _ _) (by decide)

/-- C8: a run on a non-empty document and task list with a provider that
succeeds on every invocation starts from the reset state (all tasks
`Pending` with nulled fields) and ends with every task `Success` with a
non-null `output` and null `error`. -/
theorem runWorkflow_all_ok (gen : String → String → Except Unit String)
    (decode : String → Option Json) (doc : String) (st : AppState)
    (hdoc : doc ≠ "") (hne : st.agents ≠ [])
    (hnd : (st.agents.map fun x => x.id).Nodup)
    (hok : ∀ m p, ∃ t, gen m p = Except.ok t) :
    (runWorkflow gen decode doc st).trace.head? =
      some (st.agents.map resetAgent) ∧
    (∀ a ∈ st.agents.map resetAgent, pendingNull a) ∧
    (runWorkflow gen decode doc st).final.agents.length = st.agents.length ∧
    ∀ b ∈ (runWorkflow gen decode doc st).final.agents,
      b.status = AgentStatus.Success ∧ b.output.isSome ∧ b.error = none := by
  have hreset : ∀ a ∈ st.agents.map resetAgent, pendingNull a := by
    intro a ha
    obtain ⟨b, _, hb⟩ := List.mem_map.mp ha
    rw [← hb]
    exact pendingNull_resetAgent b
  rw [runWorkflow_trace gen decode doc st hdoc hne hnd,
    runWorkflow_final_agents gen decode doc st hdoc hne hnd]
  refine ⟨rfl, hreset, ?_, ?_⟩
  · rw [expectedFinal_length, List.length_map]
  · refine expectedFinal_all_ok gen decode doc (st.agents.map resetAgent) ?_
    intro a _
    obtain ⟨t, ht⟩ := hok a.model (composePrompt doc a.prompt)
    refine ⟨t, ?_⟩
    unfold runAgent
    rw [ht]

/-- Witness for C8 at a concrete input. -/
theorem runWorkflow_all_ok_witness :
    (runWorkflow genAlwaysOk decodeNone "doc"
        ⟨[agentA, agentB], none, none, false⟩).trace.head? =
      some (([agentA, agentB] : List Agent).map resetAgent) ∧
    (∀ a ∈ ([agentA, agentB] : List Agent).map resetAgent, pendingNull a) ∧
    (runWorkflow genAlwaysOk decodeNone "doc"
        ⟨[agentA, agentB], none, none, false⟩).final.agents.length =
      ([agentA, agentB] : List Agent).length ∧
    ∀ b ∈ (runWorkflow genAlwaysOk decodeNone "doc"
        ⟨[agentA, agentB], none, none, false⟩).final.agents,
      b.status = AgentStatus.Success ∧ b.output.isSome ∧ b.error = none :=
  runWorkflow_all_ok genAlwaysOk decodeNone "doc"
    ⟨[agentA, agentB], none, none, false⟩ (by decide)
    (List.cons_ne_nil _ _) (by decide)
    (fun m p => ⟨"stub output", rfl⟩)

/-- C7: in a run on a non-empty document and task list, follow-up
synthesis is invoked if and only if some task reached `Success`; with
zero successful tasks the published analysis result is absent (`none`,
i.e. the `{sentiment: null, entities: null}` aggregate is never
published); the final task list is exactly the loop's result —
independent of the follow-up call's outcome, so a synthesis failure
changes no task's status — and a failing synthesis call leaves the
follow-up output null. -/
theorem runWorkflow_followUp_spec (gen : String → String → Except Unit String)
    (decode : String → Option Json) (doc : String) (st : AppState)
    (hdoc : doc ≠ "") (hne : st.agents ≠ [])
    (hnd : (st.agents.map fun x => x.id).Nodup) :
    ((runWorkflow gen decode doc st).followUpInvoked = true ↔
      ∃ b ∈ (runWorkflow gen decode doc st).final.agents,
        b.status = AgentStatus.Success) ∧
    ((¬ ∃ b ∈ (runWorkflow gen decode doc st).final.agents,
        b.status = AgentStatus.Success) →
      (runWorkflow gen decode doc st).final.analysisResult = none) ∧
    ((runWorkflow gen decode doc st).final.agents =
      expectedFinal gen decode doc (st.agents.map resetAgent)) ∧
    (gen "gemini-2.5-flash"
        (followUpPrompt doc (String.intercalate "\n\n"
          (expectedAcc gen doc (st.agents.map resetAgent)))) =
        Except.error () →
      (runWorkflow gen decode doc st).final.followUpQuestions = none) := by
  have hpend : ∀ a ∈ st.agents.map resetAgent,
      a.status = AgentStatus.Pending := by
    intro a ha
    obtain ⟨b, _, hb⟩ := List.mem_map.mp ha
    rw [← hb]
    rfl
  refine ⟨?_, ?_, runWorkflow_final_agents gen decode doc st hdoc hne hnd,
    runWorkflow_followUp_fail gen decode doc st hdoc hne hnd⟩
  · rw [runWorkflow_invoked gen decode doc st hdoc hne hnd,
      runWorkflow_final_agents gen decode doc st hdoc hne hnd]
    exact expectedAcc_ne_iff gen decode doc (st.agents.map resetAgent) hpend
  · intro hno
    rw [runWorkflow_final_agents gen decode doc st hdoc hne hnd] at hno
    rw [runWorkflow_analysis gen decode doc st hdoc hne hnd]
    apply aggregateSuccessful_none_of_no_success
    intro a ha hs
    exact hno ⟨a, ha, hs⟩

/-- Witness for C7 at a concrete input: one task whose provider call
fails, so no task succeeds, follow-up synthesis is not invoked and the
analysis result stays null. -/
theorem runWorkflow_followUp_spec_witness :
    ((runWorkflow genOkOnM0 decodeNone "doc"
        ⟨[agentB], none, none, false⟩).followUpInvoked = true ↔
      ∃ b ∈ (runWorkflow genOkOnM0 decodeNone "doc"
          ⟨[agentB], none, none, false⟩).final.agents,
        b.status = AgentStatus.Success) ∧
    ((¬ ∃ b ∈ (runWorkflow genOkOnM0 decodeNone "doc"
          ⟨[agentB], none, none, false⟩).final.agents,
        b.status = AgentStatus.Success) →
      (runWorkflow genOkOnM0 decodeNone "doc"
        ⟨[agentB], none, none, false⟩).final.analysisResult = none) ∧
    ((runWorkflow genOkOnM0 decodeNone "doc"
        ⟨[agentB], none, none, false⟩).final.agents =
      expectedFinal genOkOnM0 decodeNone "doc"
        (([agentB] : List Agent).map resetAgent)) ∧
    (genOkOnM0 "gemini-2.5-flash"
        (followUpPrompt "doc" (String.intercalate "\n\n"
          (expectedAcc genOkOnM0 "doc"
            (([agentB] : List Agent).map resetAgent)))) =
        Except.error () →
      (runWorkflow genOkOnM0 decodeNone "doc"
        ⟨[agentB], none, none, false⟩).final.followUpQuestions = none) :=
  runWorkflow_followUp_spec genOkOnM0 decodeNone "doc"
    ⟨[agentB], none, none, false⟩ (by decide) (List.cons_ne_nil _ _)
    (by decide)


/-- C10: when the first successful sentiment-role task has a structured
output whose `sentiment` field is absent or falsy, the sentiment
component of the aggregate is null — no neutral tally is produced. -/
theorem aggSentiment_falsy_null (fin : List Agent) (a : Agent) (j : Json)
    (hfind : (fin.filter fun x => x.status = AgentStatus.Success).find?
        (fun x => x.name = "Sentiment Analyzer") = some a)
    (hoj : a.outputJson = some j)
    (hfalsy : jsonField j "sentiment" = none ∨
      ∃ v, jsonField j "sentiment" = some v ∧ jsTruthy v = false) :
    aggSentiment (fin.filter fun x => x.status = AgentStatus.Success) = none ∧
    ∀ r, aggregateSuccessful fin = some r → r.sentiment = none := by
  have hs : aggSentiment
      (fin.filter fun x => x.status = AgentStatus.Success) = none := by
    unfold aggSentiment sentimentValue
    rw [hfind]
    rcases hfalsy with hf | ⟨v, hv, htr⟩
    · simp [hoj, hf]
    · simp [hoj, hv, htr]
  refine ⟨hs, ?_⟩
  intro r hr
  unfold aggregateSuccessful at hr
  simp only [hs, Option.isSome_none, Bool.false_or] at hr
  split at hr
  · split at hr
    · cases hr
      rfl
    · cases hr
  · cases hr

/-- Witness for C10 at a concrete input: sentiment field present but
equal to the empty string. -/
theorem aggSentiment_falsy_null_witness :
    aggSentiment ([sentAgentEmpty].filter
      fun x => x.status = AgentStatus.Success) = none ∧
    ∀ r, aggregateSuccessful [sentAgentEmpty] = some r →
      r.sentiment = none :=
  aggSentiment_falsy_null [sentAgentEmpty] sentAgentEmpty
    (Json.obj [("sentiment", Json.str "")]) rfl rfl
    (Or.inr ⟨Json.str "", rfl, rfl⟩)

/-- C5 counterexample: a final task list whose successful sentiment-role
task HAS a `sentiment` field — the empty string, a value other than
"positive"/"negative" — yet aggregation yields no sentiment tally at all
(the whole aggregate stays null), not the neutral tally the claim
predicts. -/
theorem aggregate_falsy_sentiment_counterexample :
    sentAgentEmpty.status = AgentStatus.Success ∧
    sentAgentEmpty.name = "Sentiment Analyzer" ∧
    sentAgentEmpty.outputJson = some (Json.obj [("sentiment", Json.str "")]) ∧
    jsonField (Json.obj [("sentiment", Json.str "")]) "sentiment" =
      some (Json.str "") ∧
    aggregateSuccessful [sentAgentEmpty] = none :=
  ⟨rfl, rfl, rfl, rfl, rfl⟩

/-- C5 amended: when the first successful sentiment-role task has a
TRUTHY `sentiment` field, the aggregate is published and its sentiment is
the case-insensitive classification: "positive" gives the positive
bucket, "negative" the negative bucket, any other truthy value the
neutral bucket; exactly one bucket holds 1. -/
theorem aggSentiment_truthy_spec (fin : List Agent) (a : Agent) (j v : Json)
    (hfind : (fin.filter fun x => x.status = AgentStatus.Success).find?
        (fun x => x.name = "Sentiment Analyzer") = some a)
    (hoj : a.outputJson = some j)
    (hv : jsonField j "sentiment" = some v)
    (htr : jsTruthy v = true) :
    ∃ r, aggregateSuccessful fin = some r ∧
      r.sentiment = some (sentimentTally v) ∧
      (sentimentTally v = ⟨1, 0, 0⟩ ∨ sentimentTally v = ⟨0, 1, 0⟩ ∨
        sentimentTally v = ⟨0, 0, 1⟩) ∧
      (strToLower (jsToString v) = "positive" → sentimentTally v = ⟨1, 0, 0⟩) ∧
      (strToLower (jsToString v) = "negative" → sentimentTally v = ⟨0, 1, 0⟩) ∧
      (strToLower (jsToString v) ≠ "positive" →
        strToLower (jsToString v) ≠ "negative" →
        sentimentTally v = ⟨0, 0, 1⟩) := by
  have hs : aggSentiment (fin.filter fun x => x.status = AgentStatus.Success) =
      some (sentimentTally v) := by
    unfold aggSentiment sentimentValue
    rw [hfind]
    simp [hoj, hv, htr]
  have hlen : 0 < (fin.filter
      fun x => x.status = AgentStatus.Success).length :=
    List.length_pos.mpr
      (List.ne_nil_of_mem (List.mem_of_find?_eq_some hfind))
  refine ⟨⟨some (sentimentTally v),
    aggEntities (fin.filter fun x => x.status = AgentStatus.Success)⟩,
    ?_, rfl, ?_, ?_, ?_, ?_⟩
  · unfold aggregateSuccessful
    simp only [hs]
    rw [if_pos hlen, if_pos (by simp)]
  · simp only [sentimentTally]
    split_ifs
    · exact Or.inl rfl
    · exact Or.inr (Or.inl rfl)
    · exact Or.inr (Or.inr rfl)
  · intro hpos
    simp [sentimentTally, hpos]
  · intro hneg
    simp [sentimentTally, hneg]
  · intro h1 h2
    simp [sentimentTally, h1, h2]

/-- Witness for the amended C5 at a concrete input: sentiment value
"Positive" (mixed case) gives the positive bucket. -/
theorem aggSentiment_truthy_spec_witness :
    ∃ r, aggregateSuccessful [sentAgentPos] = some r ∧
      r.sentiment = some (sentimentTally (Json.str "Positive")) ∧
      (sentimentTally (Json.str "Positive") = ⟨1, 0, 0⟩ ∨
        sentimentTally (Json.str "Positive") = ⟨0, 1, 0⟩ ∨
        sentimentTally (Json.str "Positive") = ⟨0, 0, 1⟩) ∧
      (strToLower (jsToString (Json.str "Positive")) = "positive" →
        sentimentTally (Json.str "Positive") = ⟨1, 0, 0⟩) ∧
      (strToLower (jsToString (Json.str "Positive")) = "negative" →
        sentimentTally (Json.str "Positive") = ⟨0, 1, 0⟩) ∧
      (strToLower (jsToString (Json.str "Positive")) ≠ "positive" →
        strToLower (jsToString (Json.str "Positive")) ≠ "negative" →
        sentimentTally (Json.str "Positive") = ⟨0, 0, 1⟩) :=
  aggSentiment_truthy_spec [sentAgentPos] sentAgentPos
    (Json.obj [("sentiment", Json.str "Positive")]) (Json.str "Positive")
    rfl rfl rfl rfl

/-- C6 counterexample: the successful entity-role task provides a
sequence with NO well-typed element, yet (because a sentiment tally was
also produced) the published aggregate carries `entities = some []` — an
empty sequence, not null. -/
theorem aggregate_entities_empty_counterexample :
    entityWellTyped (Json.obj [("name", Json.num 42)]) = false ∧
    aggregateSuccessful [sentAgentPos, entAgentBad] =
      some ⟨some ⟨1, 0, 0⟩, some []⟩ :=
  ⟨rfl, rfl⟩

/-- C6 amended: the aggregate's entities component is the order-preserving
filter of the first successful entity-role task's array to its
well-typed elements (malformed elements dropped silently); it is null
when there is no such task or its structured output is not an array; and
an empty entities sequence can be published only together with a
sentiment tally — when no sentiment tally is produced, a published
entities sequence is non-empty. -/
theorem aggEntities_spec (fin : List Agent) :
    (∀ a xs,
      (fin.filter fun x => x.status = AgentStatus.Success).find?
          (fun x => x.name = "Entity Extractor") = some a →
      a.outputJson = some (Json.arr xs) →
      aggEntities (fin.filter fun x => x.status = AgentStatus.Success) =
        some (xs.filter entityWellTyped) ∧
      (xs.filter entityWellTyped).Sublist xs) ∧
    ((fin.filter fun x => x.status = AgentStatus.Success).find?
        (fun x => x.name = "Entity Extractor") = none →
      aggEntities (fin.filter fun x => x.status = AgentStatus.Success) =
        none) ∧
    (∀ a,
      (fin.filter fun x => x.status = AgentStatus.Success).find?
          (fun x => x.name = "Entity Extractor") = some a →
      (∀ xs, a.outputJson ≠ some (Json.arr xs)) →
      aggEntities (fin.filter fun x => x.status = AgentStatus.Success) =
        none) ∧
    ∀ r l, aggregateSuccessful fin = some r → r.sentiment = none →
      r.entities = some l → l ≠ [] := by
  refine ⟨?_, ?_, ?_, ?_⟩
  · intro a xs hfind hoj
    unfold aggEntities
    rw [hfind]
    dsimp only
    rw [hoj]
    exact ⟨rfl, List.filter_sublist xs⟩
  · intro hfind
    unfold aggEntities
    rw [hfind]
  · intro a hfind hne
    unfold aggEntities
    rw [hfind]
    dsimp only
    cases hoj : a.outputJson with
    | none => rfl
    | some j =>
        cases j with
        | arr xs => exact absurd hoj (hne xs)
        | null => rfl
        | bool b => rfl
        | num n => rfl
        | str s => rfl
        | obj fs => rfl
  · intro r l hr hsent hent
    unfold aggregateSuccessful at hr
    simp only [gt_iff_lt] at hr
    split at hr
    · split at hr
      · next hcond =>
          cases hr
          simp only at hsent hent
          rw [hsent] at hcond
          simp only [Option.isSome_none, Bool.false_or] at hcond
          rw [hent] at hcond
          intro hl
          rw [hl] at hcond
          simp at hcond
      · cases hr
    · cases hr

/-- Witness for the amended C6 at a concrete input: the entity task's
array has one malformed element, which is dropped. -/
theorem aggEntities_spec_witness :
    aggEntities ([sentAgentPos, entAgentBad].filter
        fun x => x.status = AgentStatus.Success) =
      some (([Json.obj [("name", Json.num 42)]] : List Json).filter
        entityWellTyped) ∧
    (([Json.obj [("name", Json.num 42)]] : List Json).filter
      entityWellTyped).Sublist [Json.obj [("name", Json.num 42)]] :=
  (aggEntities_spec [sentAgentPos, entAgentBad]).1 entAgentBad
    [Json.obj [("name", Json.num 42)]] rfl rfl

theorem firstIndexOfFrom_eq_none (pat : List Char) (hpat : pat ≠ []) :
    ∀ (cs : List Char) (k : Nat), ¬ pat <:+: cs →
      firstIndexOfFrom pat cs k = none := by
  intro cs
  induction cs with
  | nil =>
      intro k h
      unfold firstIndexOfFrom
      rw [if_neg]
      intro hpre
      rw [ List.isPrefixOf_iff_prefix] at hpre
      exact hpat ( List.prefix_nil.mp hpre)
  | cons c t ih =>
      intro k h
      unfold firstIndexOfFrom
      rw [if_neg, ih (k + 1) fun hi => h ( List.infix_cons hi)]
      intro hpre
      rw [ List.isPrefixOf_iff_prefix] at hpre
      exact h hpre.isInfix

/-- C4: structured-output extraction returns the decoded value of the
first fenced block when one is present and its content decodes; it
returns null when the opening delimiter occurs nowhere or the content
fails to decode (the decoder returning `none` models the caught
`JSON.parse` exception — the extraction itself is a total function and
never raises); with two fenced blocks only the first is decoded. -/
theorem extractJson_spec (decode : String → Option Json) (s : String) :
    (¬ jsonOpenTag <:+: s.data → extractJson decode s = none) ∧
    (∀ b, firstJsonBlock s = some b → decode b = none →
      extractJson decode s = none) ∧
    (∀ b v, firstJsonBlock s = some b → decode b = some v →
      extractJson decode s = some v) ∧
    ∀ d2 : String → Option Json,
      extractJson d2 "```json\nA\n``` and ```json\nB\n```" = d2 "A" := by
  refine ⟨?_, ?_, ?_, ?_⟩
  · intro h
    unfold extractJson firstJsonBlock
    rw [firstIndexOfFrom_eq_none jsonOpenTag (by decide) s.data 0 h]
    rfl
  · intro b hb hdec
    unfold extractJson
    rw [hb]
    exact hdec
  · intro b v hb hdec
    unfold extractJson
    rw [hb]
    exact hdec
  · intro d2
    rfl

/-- Witness for C4 at concrete inputs: text without the delimiter
extracts to null. -/
theorem extractJson_spec_witness :
    (¬ jsonOpenTag <:+: ("plain text").data) ∧
    extractJson decodeNone "plain text" = none :=
  ⟨by decide, (extractJson_spec decodeNone "plain text").1 (by decide)⟩

theorem nodup_getElem?_inj {α : Type} {l : List α} (h : l.Nodup) :
    ∀ {i j : Nat} {x : α}, l[i]? = some x → l[j]? = some x → i = j := by
  induction l with
  | nil => intro i j x hi _; cases hi
  | cons a t ih =>
      rw [List.nodup_cons] at h
      intro i j x hi hj
      cases i with
      | zero =>
          cases j with
          | zero => rfl
          | succ j' =>
              exfalso
              have hax : a = x := by simpa using hi
              rw [List.getElem?_cons_succ] at hj
              exact h.1 (hax ▸ List.getElem?_mem hj)
      | succ i' =>
          cases j with
          | zero =>
              exfalso
              have hax : a = x := by simpa using hj
              rw [List.getElem?_cons_succ] at hi
              exact h.1 (hax ▸ List.getElem?_mem hi)
          | succ j' =>
              rw [List.getElem?_cons_succ] at hi hj
              exact congrArg Nat.succ (ih h.2 hi hj)

/-- C9 counterexample: the success update of a previous run's in-flight
completion — exactly the functional update `setAgents` applies on
`App.tsx` line 305, which carries no "is this still the active run"
check — applied to the freshly reset task list of a NEW run, overwrites
that list: the stale response is not discarded. -/
theorem stale_update_overwrites :
    updateById "agent-1" (successUpdate "stale output" none)
        [resetAgent agentA] =
      [⟨"agent-1", "Summarizer", "Summarize the document.",
        AgentStatus.Success, "m0", some "stale output", none, none⟩] ∧
    updateById "agent-1" (successUpdate "stale output" none)
        [resetAgent agentA] ≠ [resetAgent agentA] := by
  refine ⟨rfl, ?_⟩
  intro h
  have h2 := congrArg (fun l => l.map fun a => a.status) h
  simp [updateById, successUpdate, resetAgent, agentA] at h2

/-- C9 amended: `runWorkflow` contains no active-run guard; a stale
completion whose task id occurs in the new run's (id-unique) task list
overwrites exactly the task with that id and leaves every other task
unchanged — the stale response is applied, not discarded. -/
theorem stale_update_applies (l : List Agent) (i : Nat) (a : Agent)
    (out : String) (oj : Option Json)
    (hnd : (l.map fun x => x.id).Nodup) (hi : l[i]? = some a) :
    (updateById a.id (successUpdate out oj) l)[i]? =
      some (successUpdate out oj a) ∧
    ∀ j b, j ≠ i → l[j]? = some b →
      (updateById a.id (successUpdate out oj) l)[j]? = some b := by
  constructor
  · unfold updateById
    rw [List.getElem?_map, hi]
    simp
  · intro j b hj hb
    unfold updateById
    rw [List.getElem?_map, hb]
    have hbid : b.id ≠ a.id := by
      intro heq
      apply hj
      have hia : (l.map fun x => x.id)[i]? = some a.id := by
        rw [List.getElem?_map, hi]
        rfl
      have hjb : (l.map fun x => x.id)[j]? = some a.id := by
        rw [List.getElem?_map, hb, ← heq]
        rfl
      exact nodup_getElem?_inj hnd hjb hia
    simp [hbid]

/-- Witness for the amended C9 at a concrete input: a stale completion
for the first of two freshly reset tasks lands on that task and leaves
the second untouched. -/
theorem stale_update_applies_witness :
    (updateById (resetAgent agentA).id (successUpdate "stale output" none)
        [resetAgent agentA, resetAgent agentB])[0]? =
      some (successUpdate "stale output" none (resetAgent agentA)) ∧
    ∀ j b, j ≠ 0 → ([resetAgent agentA, resetAgent agentB] :
        List Agent)[j]? = some b →
      (updateById (resetAgent agentA).id (successUpdate "stale output" none)
        [resetAgent agentA, resetAgent agentB])[j]? = some b :=
  stale_update_applies [resetAgent agentA, resetAgent agentB] 0
    (resetAgent agentA) "stale output" none (by decide) rfl
